import Mathlib

/-!
Shallow embedding of the credential-pool selection core (the key-rotation
module of the chatbot repository: `pickNextIndex`, `tryKey`,
`getAvailableApiKey`, `getKeyStatus`), written against a Vercel KV store.

The KV store is modelled as explicit state: the rotation pointer
(`google_key_pointer`), the per-index usage counters
(`google_key_{i}_usage`, absent = 0), and the per-index expiry set by
`kv.expire`.  The source's module constants (`TOTAL_KEYS`,
`WINDOW_SECONDS`, `PER_KEY_LIMIT`, the `GOOGLE_API_KEY{n}` environment
variables) are gathered in a `Config` record so that properties stated
for general pool size N and cap C can be expressed; the concrete values
of the source are `sourceConfig`.
-/

namespace Chatbot

/-- Module configuration: pool size `TOTAL_KEYS`, window length
`WINDOW_SECONDS`, per-key cap `PER_KEY_LIMIT`, and the environment
mapping index ↦ `GOOGLE_API_KEY{index}` (absent when the variable is
unset). -/
structure Config where
  TOTAL_KEYS : Nat
  WINDOW_SECONDS : Nat
  PER_KEY_LIMIT : Nat
  env : Nat → Option String

/-- The constants of the source module: 10 keys, 30 s window, 4 uses
per key per window, with some environment `e`. -/
def sourceConfig (e : Nat → Option String) : Config :=
  { TOTAL_KEYS := 10, WINDOW_SECONDS := 30, PER_KEY_LIMIT := 4, env := e }

/-- State of the external KV store: the shared rotation pointer
(`google_key_pointer`; an absent key reads as 0 and `incr` creates it),
the usage counter of each index (`google_key_{i}_usage`; absent = 0),
and the time-to-live attached to each usage key by `kv.expire`
(`none` when no expiry is pending). -/
structure KV where
  pointer : Nat
  usage : Nat → Nat
  expiry : Nat → Option Nat

/-- The store deletes a usage key when its time-to-live elapses: the
counter becomes absent (reads as 0) and no expiry is pending, so the
next `incr` starts from 1 again. -/
def expireLapse (kv : KV) (index : Nat) : KV :=
  { kv with
    usage := fun j => if j = index then 0 else kv.usage j
    expiry := fun j => if j = index then none else kv.expiry j }

/-- The record returned on success (source `SelectedKey`): the key
material, the 1-based index, the usage after increment, the remaining
allowance in the window, and the window length. -/
structure SelectedKey where
  apiKey : String
  index : Nat
  usage : Nat
  remaining : Int
  windowSeconds : Nat
  deriving Repr, DecidableEq

/-- Source `pickNextIndex`: atomically increment `google_key_pointer` and
wrap the result to a 1-based pool index via
`((counter - 1) % TOTAL_KEYS) + 1`. -/
def pickNextIndex (cfg : Config) (kv : KV) : Nat × KV :=
  let counter := kv.pointer + 1
  let idx := ((counter - 1) % cfg.TOTAL_KEYS) + 1
  (idx, { kv with pointer := counter })

/-- The pure index-assignment function of `pickNextIndex`, as a function
of the post-increment counter value. -/
def indexOfCounter (N counter : Nat) : Nat :=
  ((counter - 1) % N) + 1

/-- Source `tryKey index`: atomically increment `google_key_{index}_usage`; if
the post-increment value is 1, set the window expiry on that key; if the
value exceeds `PER_KEY_LIMIT`, the key is not usable (`none`); if the
environment variable for the index is missing, not usable (`none`);
otherwise return the `SelectedKey` with
`remaining = max (PER_KEY_LIMIT - usage) 0`. -/
def tryKey (cfg : Config) (index : Nat) (kv : KV) : Option SelectedKey × KV :=
  let usage := kv.usage index + 1
  let kv1 : KV :=
    { kv with
      usage := fun j => if j = index then usage else kv.usage j
      expiry := fun j =>
        if j = index then
          (if usage = 1 then some cfg.WINDOW_SECONDS else kv.expiry j)
        else kv.expiry j }
  if usage > cfg.PER_KEY_LIMIT then
    (none, kv1)
  else
    match cfg.env index with
    | none => (none, kv1)
    | some apiKey =>
        let remaining : Int := max ((cfg.PER_KEY_LIMIT : Int) - (usage : Int)) 0
        (some { apiKey := apiKey, index := index, usage := usage,
                remaining := remaining, windowSeconds := cfg.WINDOW_SECONDS },
         kv1)

/-- The selection loop of `getAvailableApiKey`, with the remaining
attempt budget as fuel and the accumulated list of tried indices (in
order, duplicates included).  On exhaustion the error carries the tried
list. -/
def getAvailableApiKeyAux (cfg : Config) :
    Nat → List Nat → KV → Except (List Nat) SelectedKey × KV
  | 0, tried, kv => (Except.error tried, kv)
  | n + 1, tried, kv =>
      match tryKey cfg (pickNextIndex cfg kv).1 (pickNextIndex cfg kv).2 with
      | (some selected, kv2) => (Except.ok selected, kv2)
      | (none, kv2) =>
          getAvailableApiKeyAux cfg n (tried ++ [(pickNextIndex cfg kv).1]) kv2

/-- Source `getAvailableApiKey`: loop up to `TOTAL_KEYS` times, each iteration
advancing the rotation pointer and trying the resulting index; return
the first usable key, or fail with the exhaustion error carrying the
ordered list of tried indices. -/
def getAvailableApiKey (cfg : Config) (kv : KV) :
    Except (List Nat) SelectedKey × KV :=
  getAvailableApiKeyAux cfg cfg.TOTAL_KEYS [] kv

/-- One entry of the diagnostic snapshot returned by `getKeyStatus`. -/
structure KeyStatus where
  index : Nat
  usage : Nat
  limit : Nat
  remaining : Int
  deriving Repr, DecidableEq

/-- Source `getKeyStatus`: best-effort snapshot of all slots, reading each
usage counter without mutating it. -/
def getKeyStatus (cfg : Config) (kv : KV) : List KeyStatus :=
  (List.range cfg.TOTAL_KEYS).map fun k =>
    let i := k + 1
    let usage := kv.usage i
    { index := i, usage := usage, limit := cfg.PER_KEY_LIMIT,
      remaining := max ((cfg.PER_KEY_LIMIT : Int) - (usage : Int)) 0 }

/-- State after `n` sequential `tryKey` calls on the same index. -/
def tryKeyN (cfg : Config) (index : Nat) : Nat → KV → KV
  | 0, kv => kv
  | n + 1, kv => (tryKey cfg index (tryKeyN cfg index n kv)).2

/-- The indices produced by the next `n` rotation-pointer advances when
the pointer currently holds `p`: the pure image of the counter values
`p + 1, p + 2, ..., p + n` under `indexOfCounter`. -/
def rotationTraceFrom (cfg : Config) (p n : Nat) : List Nat :=
  (List.range n).map fun k => indexOfCounter cfg.TOTAL_KEYS (p + 1 + k)

/-- A serialized interleaving of credential-use attempts: the external
store executes the atomic increments of concurrently racing callers in
some order, and each attempt's accept/reject verdict depends only on its
own post-increment value, so any concurrent execution is captured by
running the attempts in their serialization order.  Returns the list of
per-attempt results in order, with the final store state. -/
def runUses (cfg : Config) : List Nat → KV → List (Option SelectedKey) × KV
  | [], kv => ([], kv)
  | i :: rest, kv =>
      let t := tryKey cfg i kv
      let r := runUses cfg rest t.2
      (t.1 :: r.1, r.2)

/-- Whether a single attempt result is an accepted (non-`none`) use of
index `i`. -/
def isAcceptFor (i : Nat) : Option SelectedKey → Bool
  | some s => s.index == i
  | none => false

/-- Number of accepted (non-`none`) results issued for index `i`. -/
def acceptedFor (i : Nat) (results : List (Option SelectedKey)) : Nat :=
  results.countP (isAcceptFor i)

/-- A demo environment with every slot configured, used to instantiate
theorems at concrete inputs. -/
def envDemo : Nat → Option String :=
  fun _ => some "demo-key"

/-- A demo environment where slot 1 is missing and the rest are
configured. -/
def envGap : Nat → Option String :=
  fun i => if i = 1 then none else some "demo-key"

/-- The fresh store state: pointer at 0, all usage counters absent. -/
def kvFresh : KV :=
  { pointer := 0, usage := fun _ => 0, expiry := fun _ => none }

/-- A store state in which every usage counter already sits at the
per-key cap of `sourceConfig`. -/
def kvCapped : KV :=
  { pointer := 0, usage := fun _ => 4, expiry := fun _ => none }

/-- The record selected by the first call on a fresh store under
`envDemo`: index 1, first use in the window, 3 uses remaining. -/
def selDemo : SelectedKey :=
  { apiKey := "demo-key", index := 1, usage := 1, remaining := 3,
    windowSeconds := 30 }

/-! ### Basic facts about `tryKey` -/

/-- The store state after `tryKey`: the tried index's usage counter is
incremented, the expiry is set to the window length exactly when the
post-increment value is 1, and nothing else changes. -/
theorem tryKey_snd (cfg : Config) (index : Nat) (kv : KV) :
    (tryKey cfg index kv).2 =
      { kv with
        usage := fun j => if j = index then kv.usage index + 1 else kv.usage j
        expiry := fun j =>
          if j = index then
            (if kv.usage index + 1 = 1 then some cfg.WINDOW_SECONDS
             else kv.expiry j)
          else kv.expiry j } := by
  unfold tryKey
  dsimp only
  split
  · rfl
  · split <;> rfl

theorem tryKey_snd_usage_self (cfg : Config) (index : Nat) (kv : KV) :
    ((tryKey cfg index kv).2).usage index = kv.usage index + 1 := by
  rw [tryKey_snd]
  simp

theorem tryKey_snd_usage_other (cfg : Config) (index j : Nat) (kv : KV)
    (h : j ≠ index) :
    ((tryKey cfg index kv).2).usage j = kv.usage j := by
  rw [tryKey_snd]
  simp [h]

theorem tryKey_snd_pointer (cfg : Config) (index : Nat) (kv : KV) :
    ((tryKey cfg index kv).2).pointer = kv.pointer := by
  rw [tryKey_snd]


theorem tryKey_usage_monotone (cfg : Config) (index j : Nat) (kv : KV) :
    kv.usage j ≤ ((tryKey cfg index kv).2).usage j := by
  rw [tryKey_snd]
  dsimp only
  split
  · next h => subst h; exact Nat.le_succ _
  · exact Nat.le_refl _

/-- Over the cap: when the post-increment usage exceeds `PER_KEY_LIMIT`,
`tryKey` rejects the index. -/
theorem tryKey_fst_over_cap (cfg : Config) (index : Nat) (kv : KV)
    (h : cfg.PER_KEY_LIMIT < kv.usage index + 1) :
    (tryKey cfg index kv).1 = none := by
  unfold tryKey
  dsimp only
  rw [if_pos h]

/-- Missing credential material: within cap but no environment variable
for the slot, `tryKey` rejects the index. -/
theorem tryKey_fst_missing_env (cfg : Config) (index : Nat) (kv : KV)
    (hcap : kv.usage index + 1 ≤ cfg.PER_KEY_LIMIT)
    (henv : cfg.env index = none) :
    (tryKey cfg index kv).1 = none := by
  unfold tryKey
  dsimp only
  rw [if_neg (Nat.not_lt.mpr hcap), henv]

/-- Within cap with configured material: `tryKey` returns the selected
record with all its fields. -/
theorem tryKey_fst_success (cfg : Config) (index : Nat) (kv : KV)
    (apiKey : String)
    (hcap : kv.usage index + 1 ≤ cfg.PER_KEY_LIMIT)
    (henv : cfg.env index = some apiKey) :
    (tryKey cfg index kv).1 =
      some { apiKey := apiKey, index := index, usage := kv.usage index + 1
             remaining := max ((cfg.PER_KEY_LIMIT : Int)
                                - ((kv.usage index + 1 : Nat) : Int)) 0
             windowSeconds := cfg.WINDOW_SECONDS } := by
  unfold tryKey
  dsimp only
  rw [if_neg (Nat.not_lt.mpr hcap), henv]

/-- Inversion: everything a successful `tryKey` result satisfies. -/
theorem tryKey_some_inv (cfg : Config) (index : Nat) (kv : KV)
    (sel : SelectedKey) (h : (tryKey cfg index kv).1 = some sel) :
    sel.index = index ∧
    sel.usage = kv.usage index + 1 ∧
    sel.usage ≤ cfg.PER_KEY_LIMIT ∧
    cfg.env index = some sel.apiKey ∧
    sel.remaining = max ((cfg.PER_KEY_LIMIT : Int) - (sel.usage : Int)) 0 ∧
    sel.windowSeconds = cfg.WINDOW_SECONDS := by
  unfold tryKey at h
  dsimp only at h
  split at h
  · exact absurd h (by simp)
  · next hov =>
    split at h
    · exact absurd h (by simp)
    · next apiKey henv =>
      cases h
      refine ⟨rfl, rfl, Nat.not_lt.mp hov, henv, rfl, rfl⟩

/-! ### Sequential calls on one index -/

theorem tryKeyN_usage (cfg : Config) (index : Nat) :
    ∀ (n : Nat) (kv : KV),
      (tryKeyN cfg index n kv).usage index = kv.usage index + n := by
  intro n
  induction n with
  | zero => intro kv; rfl
  | succ n ih =>
      intro kv
      show ((tryKey cfg index (tryKeyN cfg index n kv)).2).usage index = _
      rw [tryKey_snd_usage_self, ih]
      omega

/-! ### Facts about the selection loop -/

/-- When every usage counter already sits at or above the cap, the loop
runs through all its fuel, every attempt is rejected, and the error
carries the accumulated trace followed by the next `n` rotation
indices. -/
theorem aux_all_capped (cfg : Config) :
    ∀ (n : Nat) (tried : List Nat) (kv : KV),
      (∀ j, cfg.PER_KEY_LIMIT ≤ kv.usage j) →
      (getAvailableApiKeyAux cfg n tried kv).1 =
        Except.error (tried ++ rotationTraceFrom cfg kv.pointer n) := by
  intro n
  induction n with
  | zero =>
      intro tried kv _
      simp [getAvailableApiKeyAux, rotationTraceFrom]
  | succ n ih =>
      intro tried kv h
      have hidx :
          (tryKey cfg (pickNextIndex cfg kv).1 (pickNextIndex cfg kv).2).1
            = none := by
        apply tryKey_fst_over_cap
        have : cfg.PER_KEY_LIMIT ≤ kv.usage (pickNextIndex cfg kv).1 :=
          h _
        exact Nat.lt_succ_of_le this
      have hsplit :
          tryKey cfg (pickNextIndex cfg kv).1 (pickNextIndex cfg kv).2
            = (none,
               (tryKey cfg (pickNextIndex cfg kv).1
                  (pickNextIndex cfg kv).2).2) := by
        rw [← hidx]
      rw [getAvailableApiKeyAux, hsplit]
      rw [ih]
      · have hp :
            ((tryKey cfg (pickNextIndex cfg kv).1
                (pickNextIndex cfg kv).2).2).pointer = kv.pointer + 1 := by
          rw [tryKey_snd_pointer]
          rfl
        rw [hp]
        have htrace :
            rotationTraceFrom cfg kv.pointer (n + 1)
              = indexOfCounter cfg.TOTAL_KEYS (kv.pointer + 1)
                  :: rotationTraceFrom cfg (kv.pointer + 1) n := by
          unfold rotationTraceFrom
          rw [List.range_succ_eq_map, List.map_cons, List.map_map]
          simp only [Nat.add_zero]
          congr 1
          apply List.map_congr_left
          intro k _
          simp only [Function.comp_apply]
          congr 1
          omega
        rw [htrace]
        have hfst : (pickNextIndex cfg kv).1
            = indexOfCounter cfg.TOTAL_KEYS (kv.pointer + 1) := rfl
        rw [hfst]
        simp
      · intro j
        exact Nat.le_trans (h j)
          (tryKey_usage_monotone cfg (pickNextIndex cfg kv).1 j
            (pickNextIndex cfg kv).2)

/-- Inversion for a successful run of the selection loop: the selected
record's fields are exactly those assembled by `tryKey`, and the final
store state reads the selected index's counter at the returned usage
value. -/
theorem aux_ok_inv (cfg : Config) :
    ∀ (n : Nat) (tried : List Nat) (kv : KV) (sel : SelectedKey) (kv' : KV),
      getAvailableApiKeyAux cfg n tried kv = (Except.ok sel, kv') →
      1 ≤ sel.usage ∧
      sel.usage ≤ cfg.PER_KEY_LIMIT ∧
      cfg.env sel.index = some sel.apiKey ∧
      sel.remaining = max ((cfg.PER_KEY_LIMIT : Int) - (sel.usage : Int)) 0 ∧
      sel.windowSeconds = cfg.WINDOW_SECONDS ∧
      kv'.usage sel.index = sel.usage := by
  intro n
  induction n with
  | zero =>
      intro tried kv sel kv' h
      exact absurd (congrArg Prod.fst h) (by simp [getAvailableApiKeyAux])
  | succ n ih =>
      intro tried kv sel kv' h
      rw [getAvailableApiKeyAux] at h
      rcases ht : tryKey cfg (pickNextIndex cfg kv).1 (pickNextIndex cfg kv).2
        with ⟨o, kv2⟩
      rw [ht] at h
      cases o with
      | none => exact ih _ _ _ _ h
      | some s =>
          have hs : s = sel ∧ kv2 = kv' := by
            constructor
            · exact Except.ok.inj (congrArg Prod.fst h)
            · exact congrArg Prod.snd h
          rcases hs with ⟨rfl, rfl⟩
          have hfst : (tryKey cfg (pickNextIndex cfg kv).1
              (pickNextIndex cfg kv).2).1 = some s := by rw [ht]
          have hinv := tryKey_some_inv cfg _ _ s hfst
          rcases hinv with ⟨hidx, husage, hle, henv, hrem, hwin⟩
          refine ⟨?_, hle, ?_, hrem, hwin, ?_⟩
          · rw [husage]; exact Nat.succ_le_succ (Nat.zero_le _)
          · rw [hidx]; exact henv
          · have : kv2 = (tryKey cfg (pickNextIndex cfg kv).1
                (pickNextIndex cfg kv).2).2 := by rw [ht]
            rw [this, hidx, tryKey_snd_usage_self]
            exact husage.symm

/-! ### Counting the rotation indices over two full cycles -/

theorem count_indexOfCounter_two_cycles (N i : Nat) (h1 : 1 ≤ i)
    (h2 : i ≤ N) :
    ((List.range (2 * N)).map fun k => indexOfCounter N (k + 1)).count i
      = 2 := by
  have hfun : (fun k => indexOfCounter N (k + 1))
      = fun k => ((k + 1 - 1) % N) + 1 := rfl
  rw [hfun]
  have h2N : 2 * N = N + N := by omega
  have hhalf :
      (List.range N).map (fun k => ((k + 1 - 1) % N) + 1)
        = (List.range N).map (fun k => k + 1) := by
    apply List.map_congr_left
    intro k hk
    rw [List.mem_range] at hk
    simp [Nat.mod_eq_of_lt hk]
  have hsecond :
      (List.map (fun x => N + x) (List.range N)).map
          (fun k => ((k + 1 - 1) % N) + 1)
        = (List.range N).map (fun k => ((k + 1 - 1) % N) + 1) := by
    rw [List.map_map]
    apply List.map_congr_left
    intro k hk
    rw [List.mem_range] at hk
    simp [Function.comp, Nat.add_mod_left, Nat.mod_eq_of_lt hk]
  have hone : ((List.range N).map (fun k => k + 1)).count i = 1 := by
    have hinj := List.count_map_of_injective (List.range N) (fun k => k + 1)
      (fun a b hab => by
        have hab1 : a + 1 = b + 1 := hab
        omega) (i - 1)
    have hi : i - 1 + 1 = i := by omega
    rw [hi] at hinj
    rw [hinj]
    exact List.count_eq_one_of_mem (List.nodup_range N)
      (List.mem_range.mpr (by omega))
  rw [h2N, List.range_add, List.map_append, List.count_append, hsecond, hhalf,
    hone]

/-! ### The accepted-use bound under any serialization -/

theorem acceptedFor_cons (i : Nat) (r : Option SelectedKey)
    (rest : List (Option SelectedKey)) :
    acceptedFor i (r :: rest)
      = acceptedFor i rest + (if isAcceptFor i r then 1 else 0) := by
  simp [acceptedFor, List.countP_cons]

/-- Core bound: however the concurrent attempts are serialized, the
number of accepted uses of index `i` never exceeds what is left of the
cap given the current counter value. -/
theorem runUses_accepted_bound (cfg : Config) (i : Nat) :
    ∀ (l : List Nat) (kv : KV),
      acceptedFor i (runUses cfg l kv).1
        ≤ cfg.PER_KEY_LIMIT - kv.usage i := by
  intro l
  induction l with
  | nil =>
      intro kv
      simp [runUses, acceptedFor]
  | cons a rest ih =>
      intro kv
      have hstep :
          (runUses cfg (a :: rest) kv).1
            = (tryKey cfg a kv).1
                :: (runUses cfg rest (tryKey cfg a kv).2).1 := rfl
      rw [hstep, acceptedFor_cons]
      have ihrest := ih (tryKey cfg a kv).2
      by_cases hai : a = i
      · subst hai
        rw [tryKey_snd_usage_self] at ihrest
        by_cases hover : cfg.PER_KEY_LIMIT < kv.usage a + 1
        · rw [tryKey_fst_over_cap cfg a kv hover]
          have hzero : (if isAcceptFor a none then 1 else 0) = 0 := rfl
          rw [hzero]
          omega
        · have hle : kv.usage a + 1 ≤ cfg.PER_KEY_LIMIT := Nat.not_lt.mp hover
          have hhead :
              (if isAcceptFor a (tryKey cfg a kv).1 then 1 else 0) ≤ 1 := by
            split <;> omega
          omega
      · have hfalse : isAcceptFor i (tryKey cfg a kv).1 = false := by
          rcases ht : (tryKey cfg a kv).1 with _ | s
          · rfl
          · have hi := (tryKey_some_inv cfg a kv s ht).1
            show (s.index == i) = false
            rw [hi]
            exact beq_eq_false_iff_ne.mpr hai
        rw [hfalse]
        rw [tryKey_snd_usage_other cfg a i kv (fun hh => hai hh.symm)]
          at ihrest
        simpa using ihrest

/-- Evaluation of the selection run on a fresh store under the demo
environment, used to instantiate the success-path theorems. -/
theorem getAvailableApiKey_demo_eq :
    getAvailableApiKey (sourceConfig envDemo) kvFresh
      = (Except.ok selDemo,
         (getAvailableApiKey (sourceConfig envDemo) kvFresh).2) := by
  rfl

/-! ### The claims -/

/-- C1: with per-key cap C and a single credential index receiving
exactly C sequential recordUse (`tryKey`) calls with no expiry in
between, the C-th call returns usage = C and remaining = 0, and the
(C+1)-th call, still within the window, makes that index unusable. -/
theorem claim_cap_boundary (cfg : Config) (index : Nat) (kv : KV)
    (apiKey : String)
    (henv : cfg.env index = some apiKey) (h0 : kv.usage index = 0)
    (hC : 1 ≤ cfg.PER_KEY_LIMIT) :
    (∃ sel,
      (tryKey cfg index (tryKeyN cfg index (cfg.PER_KEY_LIMIT - 1) kv)).1
          = some sel
        ∧ sel.usage = cfg.PER_KEY_LIMIT ∧ sel.remaining = 0)
    ∧ (tryKey cfg index (tryKeyN cfg index cfg.PER_KEY_LIMIT kv)).1
        = none := by
  have hu1 : (tryKeyN cfg index (cfg.PER_KEY_LIMIT - 1) kv).usage index
      = cfg.PER_KEY_LIMIT - 1 := by
    rw [tryKeyN_usage, h0]
    omega
  have hu2 : (tryKeyN cfg index cfg.PER_KEY_LIMIT kv).usage index
      = cfg.PER_KEY_LIMIT := by
    rw [tryKeyN_usage, h0]
    omega
  constructor
  · have hsucc := tryKey_fst_success cfg index
      (tryKeyN cfg index (cfg.PER_KEY_LIMIT - 1) kv) apiKey
      (by rw [hu1]; omega) henv
    rw [hu1] at hsucc
    refine ⟨_, hsucc, ?_, ?_⟩
    · show cfg.PER_KEY_LIMIT - 1 + 1 = cfg.PER_KEY_LIMIT
      omega
    · show max ((cfg.PER_KEY_LIMIT : Int)
          - ((cfg.PER_KEY_LIMIT - 1 + 1 : Nat) : Int)) 0 = 0
      have hcc : (cfg.PER_KEY_LIMIT - 1 + 1 : Nat) = cfg.PER_KEY_LIMIT := by
        omega
      rw [hcc]
      simp
  · apply tryKey_fst_over_cap
    rw [hu2]
    omega

theorem claim_cap_boundary_witness :
    (∃ sel,
      (tryKey (sourceConfig envDemo) 3
          (tryKeyN (sourceConfig envDemo) 3 3 kvFresh)).1 = some sel
        ∧ sel.usage = 4 ∧ sel.remaining = 0)
    ∧ (tryKey (sourceConfig envDemo) 3
        (tryKeyN (sourceConfig envDemo) 3 4 kvFresh)).1 = none :=
  claim_cap_boundary (sourceConfig envDemo) 3 kvFresh "demo-key" rfl rfl
    (by decide)

/-- C2: every resolve (`tryKey`) call increments the tried index's usage
counter exactly once, unconditionally — whatever the outcome — and
leaves every other counter unchanged, so while present the counter only
increases and is bumped exactly once per attempted use. -/
theorem claim_record_use_unconditional (cfg : Config) (index : Nat)
    (kv : KV) :
    ((tryKey cfg index kv).2).usage index = kv.usage index + 1
    ∧ ∀ j, j ≠ index → ((tryKey cfg index kv).2).usage j = kv.usage j :=
  ⟨tryKey_snd_usage_self cfg index kv,
   fun j hj => tryKey_snd_usage_other cfg index j kv hj⟩

theorem claim_record_use_unconditional_witness :
    ((tryKey (sourceConfig envDemo) 2 kvFresh).2).usage 2
        = kvFresh.usage 2 + 1
    ∧ ((tryKey (sourceConfig envDemo) 2 kvFresh).2).usage 5
        = kvFresh.usage 5 :=
  ⟨(claim_record_use_unconditional (sourceConfig envDemo) 2 kvFresh).1,
   (claim_record_use_unconditional (sourceConfig envDemo) 2 kvFresh).2 5
     (by decide)⟩

/-- C3: `pickNextIndex` computes the pool index as the pure function
`((counter - 1) % N) + 1` of the post-increment counter, the result lies
in 1..N, and over the counter values 1..2N every index in 1..N is
visited exactly twice. -/
theorem claim_rotation_pure_cycle (cfg : Config) (kv : KV) (i : Nat)
    (hN : 1 ≤ cfg.TOTAL_KEYS) (hi1 : 1 ≤ i) (hiN : i ≤ cfg.TOTAL_KEYS) :
    (pickNextIndex cfg kv).1
        = indexOfCounter cfg.TOTAL_KEYS (kv.pointer + 1)
    ∧ (1 ≤ (pickNextIndex cfg kv).1
        ∧ (pickNextIndex cfg kv).1 ≤ cfg.TOTAL_KEYS)
    ∧ ((List.range (2 * cfg.TOTAL_KEYS)).map
          fun k => indexOfCounter cfg.TOTAL_KEYS (k + 1)).count i = 2 := by
  refine ⟨rfl, ⟨Nat.succ_le_succ (Nat.zero_le _), ?_⟩,
    count_indexOfCounter_two_cycles cfg.TOTAL_KEYS i hi1 hiN⟩
  show ((kv.pointer + 1 - 1) % cfg.TOTAL_KEYS) + 1 ≤ cfg.TOTAL_KEYS
  have := Nat.mod_lt (kv.pointer + 1 - 1)
    (show 0 < cfg.TOTAL_KEYS from hN)
  omega

theorem claim_rotation_pure_cycle_witness :
    (pickNextIndex (sourceConfig envDemo) kvFresh).1
        = indexOfCounter 10 (kvFresh.pointer + 1)
    ∧ (1 ≤ (pickNextIndex (sourceConfig envDemo) kvFresh).1
        ∧ (pickNextIndex (sourceConfig envDemo) kvFresh).1 ≤ 10)
    ∧ ((List.range (2 * 10)).map
          fun k => indexOfCounter 10 (k + 1)).count 7 = 2 :=
  claim_rotation_pure_cycle (sourceConfig envDemo) kvFresh 7 (by decide)
    (by decide) (by decide)

/-- C4: when every credential is at or above cap, the selection loop
fails with the exhaustion error carrying the full list of indices
attempted — the next `TOTAL_KEYS` rotation indices in the order tried,
duplicates included — and that trace has exactly `TOTAL_KEYS`
entries. -/
theorem claim_exhausted_trace (cfg : Config) (kv : KV)
    (h : ∀ j, cfg.PER_KEY_LIMIT ≤ kv.usage j) :
    (getAvailableApiKey cfg kv).1
        = Except.error (rotationTraceFrom cfg kv.pointer cfg.TOTAL_KEYS)
    ∧ (rotationTraceFrom cfg kv.pointer cfg.TOTAL_KEYS).length
        = cfg.TOTAL_KEYS := by
  constructor
  · have h1 := aux_all_capped cfg cfg.TOTAL_KEYS [] kv h
    rw [List.nil_append] at h1
    exact h1
  · simp [rotationTraceFrom]

theorem claim_exhausted_trace_witness :
    (getAvailableApiKey (sourceConfig envDemo) kvCapped).1
        = Except.error
            (rotationTraceFrom (sourceConfig envDemo) kvCapped.pointer 10)
    ∧ (rotationTraceFrom (sourceConfig envDemo) kvCapped.pointer 10).length
        = 10 :=
  claim_exhausted_trace (sourceConfig envDemo) kvCapped
    (fun _ => Nat.le.refl)

/-- C5: `tryKey` attaches the window's time-to-live to the usage counter
exactly when the post-increment value is 1, and once the store expires
the counter the next call on that index returns usage 1 and is again
first in the window (its expiry is set anew). -/
theorem claim_ttl_first_use (cfg : Config) (index : Nat) (kv : KV) :
    ((tryKey cfg index kv).2).expiry index
        = (if kv.usage index + 1 = 1 then some cfg.WINDOW_SECONDS
           else kv.expiry index)
    ∧ ((tryKey cfg index (expireLapse kv index)).2).usage index = 1
    ∧ ((tryKey cfg index (expireLapse kv index)).2).expiry index
        = some cfg.WINDOW_SECONDS := by
  refine ⟨?_, ?_, ?_⟩
  · rw [tryKey_snd]
    simp
  · rw [tryKey_snd_usage_self]
    show (expireLapse kv index).usage index + 1 = 1
    simp [expireLapse]
  · rw [tryKey_snd]
    simp [expireLapse]

/-- C6: a successful selection returns a record whose credential is the
configured material for the chosen index, whose usage is the counter
value after the increment (as read back from the final store state),
whose remaining allowance is cap - usage floored at 0, and whose window
field is the fixed window length. -/
theorem claim_success_record (cfg : Config) (kv : KV) (sel : SelectedKey)
    (kv' : KV) (h : getAvailableApiKey cfg kv = (Except.ok sel, kv')) :
    cfg.env sel.index = some sel.apiKey
    ∧ kv'.usage sel.index = sel.usage
    ∧ sel.remaining = max ((cfg.PER_KEY_LIMIT : Int) - (sel.usage : Int)) 0
    ∧ sel.windowSeconds = cfg.WINDOW_SECONDS := by
  have hinv := aux_ok_inv cfg cfg.TOTAL_KEYS [] kv sel kv' h
  exact ⟨hinv.2.2.1, hinv.2.2.2.2.2, hinv.2.2.2.1, hinv.2.2.2.2.1⟩

theorem claim_success_record_witness :
    (sourceConfig envDemo).env selDemo.index = some selDemo.apiKey
    ∧ ((getAvailableApiKey (sourceConfig envDemo) kvFresh).2).usage
          selDemo.index = selDemo.usage
    ∧ selDemo.remaining = max ((4 : Int) - (selDemo.usage : Int)) 0
    ∧ selDemo.windowSeconds = 30 :=
  claim_success_record (sourceConfig envDemo) kvFresh selDemo
    (getAvailableApiKey (sourceConfig envDemo) kvFresh).2
    getAvailableApiKey_demo_eq

/-- C7: an index whose usage is within cap but whose slot has no
configured credential material is rejected by `tryKey`, and the
selection loop treats that as a routine try-next step: it records the
index and keeps sweeping, so a missing credential only ever contributes
to the exhaustion error, never to a distinct error of its own. -/
theorem claim_missing_env_try_next (cfg : Config) (kv : KV) (n : Nat)
    (tried : List Nat)
    (hcap : kv.usage (pickNextIndex cfg kv).1 + 1 ≤ cfg.PER_KEY_LIMIT)
    (henv : cfg.env (pickNextIndex cfg kv).1 = none) :
    (tryKey cfg (pickNextIndex cfg kv).1 (pickNextIndex cfg kv).2).1 = none
    ∧ getAvailableApiKeyAux cfg (n + 1) tried kv
        = getAvailableApiKeyAux cfg n (tried ++ [(pickNextIndex cfg kv).1])
            ((tryKey cfg (pickNextIndex cfg kv).1
                (pickNextIndex cfg kv).2).2) := by
  have hnone :
      (tryKey cfg (pickNextIndex cfg kv).1 (pickNextIndex cfg kv).2).1
        = none :=
    tryKey_fst_missing_env cfg (pickNextIndex cfg kv).1
      (pickNextIndex cfg kv).2 hcap henv
  refine ⟨hnone, ?_⟩
  have hsplit :
      tryKey cfg (pickNextIndex cfg kv).1 (pickNextIndex cfg kv).2
        = (none,
           (tryKey cfg (pickNextIndex cfg kv).1
              (pickNextIndex cfg kv).2).2) := by
    rw [← hnone]
  rw [getAvailableApiKeyAux, hsplit]

theorem claim_missing_env_try_next_witness :
    (tryKey (sourceConfig envGap) (pickNextIndex (sourceConfig envGap) kvFresh).1
        (pickNextIndex (sourceConfig envGap) kvFresh).2).1 = none
    ∧ getAvailableApiKeyAux (sourceConfig envGap) 10 [] kvFresh
        = getAvailableApiKeyAux (sourceConfig envGap) 9
            ([] ++ [(pickNextIndex (sourceConfig envGap) kvFresh).1])
            ((tryKey (sourceConfig envGap)
                (pickNextIndex (sourceConfig envGap) kvFresh).1
                (pickNextIndex (sourceConfig envGap) kvFresh).2).2) :=
  claim_missing_env_try_next (sourceConfig envGap) kvFresh 9 []
    (by decide) rfl

/-- C8: under any serialization of concurrently racing use attempts — the
store executes the atomic increments in some order and each attempt is
judged only on its own post-increment value — a credential whose window
starts empty never collects more than cap accepted (non-rejected)
uses. -/
theorem claim_concurrent_cap (cfg : Config) (attempts : List Nat)
    (kv : KV) (i : Nat) (h0 : kv.usage i = 0) :
    acceptedFor i (runUses cfg attempts kv).1 ≤ cfg.PER_KEY_LIMIT := by
  have hb := runUses_accepted_bound cfg i attempts kv
  rw [h0] at hb
  simpa using hb

theorem claim_concurrent_cap_witness :
    acceptedFor 1
        (runUses (sourceConfig envDemo) [1, 1, 1, 1, 1, 1] kvFresh).1 ≤ 4 :=
  claim_concurrent_cap (sourceConfig envDemo) [1, 1, 1, 1, 1, 1] kvFresh 1
    rfl

/-- C9: a usage counter can never be read as negative; a post-increment
value within the cap means the use is permitted (the resolver returns a
selection when the slot is configured), and a value above the cap means
the credential is unusable for now. -/
theorem claim_usage_cap_semantics (cfg : Config) (index : Nat) (kv : KV) :
    0 ≤ kv.usage index
    ∧ 0 ≤ ((tryKey cfg index kv).2).usage index
    ∧ (kv.usage index + 1 ≤ cfg.PER_KEY_LIMIT → cfg.env index ≠ none →
        ((tryKey cfg index kv).1).isSome = true)
    ∧ (cfg.PER_KEY_LIMIT < kv.usage index + 1 →
        (tryKey cfg index kv).1 = none) := by
  refine ⟨Nat.zero_le _, Nat.zero_le _, ?_,
    tryKey_fst_over_cap cfg index kv⟩
  intro hcap henv
  rcases he : cfg.env index with _ | apiKey
  · exact absurd he henv
  · rw [tryKey_fst_success cfg index kv apiKey hcap he]
    rfl

theorem claim_usage_cap_semantics_witness :
    ((tryKey (sourceConfig envDemo) 1 kvFresh).1).isSome = true
    ∧ (tryKey (sourceConfig envDemo) 1 kvCapped).1 = none :=
  ⟨(claim_usage_cap_semantics (sourceConfig envDemo) 1 kvFresh).2.2.1
      (by decide) (by decide),
   (claim_usage_cap_semantics (sourceConfig envDemo) 1 kvCapped).2.2.2
      (by decide)⟩

/-- C10: on every successful return of the selection path, the returned
usage lies in 1..cap, the reported remaining allowance equals cap -
usage exactly and lies in 0..cap-1, so the floor-at-0 clamp never
engages on the success path. -/
theorem claim_success_usage_range (cfg : Config) (kv : KV)
    (sel : SelectedKey) (kv' : KV)
    (h : getAvailableApiKey cfg kv = (Except.ok sel, kv')) :
    1 ≤ sel.usage ∧ sel.usage ≤ cfg.PER_KEY_LIMIT
    ∧ sel.remaining = (cfg.PER_KEY_LIMIT : Int) - (sel.usage : Int)
    ∧ 0 ≤ sel.remaining
    ∧ sel.remaining ≤ (cfg.PER_KEY_LIMIT : Int) - 1 := by
  have hinv := aux_ok_inv cfg cfg.TOTAL_KEYS [] kv sel kv' h
  rcases hinv with ⟨h1, h2, _, hrem, _, _⟩
  have hcast : (sel.usage : Int) ≤ (cfg.PER_KEY_LIMIT : Int) := by
    exact_mod_cast h2
  have hmax : max ((cfg.PER_KEY_LIMIT : Int) - (sel.usage : Int)) 0
      = (cfg.PER_KEY_LIMIT : Int) - (sel.usage : Int) := by
    apply max_eq_left
    omega
  have h1' : (1 : Int) ≤ (sel.usage : Int) := by exact_mod_cast h1
  refine ⟨h1, h2, ?_, ?_, ?_⟩
  · rw [hrem, hmax]
  · rw [hrem]
    exact le_max_right _ _
  · rw [hrem, hmax]
    omega

theorem claim_success_usage_range_witness :
    1 ≤ selDemo.usage ∧ selDemo.usage ≤ 4
    ∧ selDemo.remaining = (4 : Int) - (selDemo.usage : Int)
    ∧ 0 ≤ selDemo.remaining
    ∧ selDemo.remaining ≤ (4 : Int) - 1 :=
  claim_success_usage_range (sourceConfig envDemo) kvFresh selDemo
    (getAvailableApiKey (sourceConfig envDemo) kvFresh).2
    getAvailableApiKey_demo_eq

end Chatbot
